import Mathlib

/-!
Verification model of the external-camera discovery and registration
subsystem of `hardware/interfaces` (NXP fork): the provider facade,
presence registry, device classifier and hotplug discovery worker found in
`camera/provider/default/ExternalCameraProvider.cpp` (AIDL provider, the
primary implementation modelled here) and
`camera/provider/2.4/default/ExternalCameraProviderImpl_2_4.cpp`.

Strings are modelled as `List Char` (a faithful rendering of
`std::string` / C strings); the kernel-facing effects (file reads, opens,
ioctls, directory listings) are modelled by an explicit environment
record, and the registry plus callback state by an explicit state record
threaded through the operations.
-/

namespace ExtCam

/-- Convert a Lean string literal to the `List Char` model of C++ strings. -/
def s2l (s : String) : List Char := s.toList

/- ### Decimal digits, `std::to_string`, `atoi` / `stoi` -/

/-- Is `c` an ASCII decimal digit? -/
def isDig (c : Char) : Bool := 48 ≤ c.toNat && c.toNat ≤ 57

/-- Is `c` ASCII whitespace (the `isspace` set skipped by `atoi`/`stoi`):
space (32), tab (9), newline (10), vertical tab (11), form feed (12),
carriage return (13)? -/
def isWs (c : Char) : Bool :=
  c.toNat = 32 || c.toNat = 9 || c.toNat = 10 || c.toNat = 11 || c.toNat = 12 || c.toNat = 13

/-- Split off the longest leading run of decimal digits. -/
def takeDigs : List Char → List Char × List Char
  | [] => ([], [])
  | c :: cs =>
    if isDig c then
      let p := takeDigs cs
      (c :: p.1, p.2)
    else ([], c :: cs)

/-- Numeric value of a digit string, most significant digit first. -/
def evalDigs (l : List Char) : Nat := l.foldl (fun a c => 10 * a + (c.toNat - 48)) 0

/-- Drop leading ASCII whitespace. -/
def skipWs : List Char → List Char
  | [] => []
  | c :: cs => if isWs c then skipWs cs else c :: cs

/-- Shared numeric parser of `atoi` and `std::stoi`: skip whitespace, an
optional sign, then a nonempty digit run; `none` when no digits follow
(for `stoi` this is the thrown `std::invalid_argument`). -/
def parseSigned (l : List Char) : Option Int :=
  match skipWs l with
  | [] => none
  | c :: r =>
    if c = '-' then
      let p := takeDigs r
      if p.1 = [] then none else some (-(evalDigs p.1 : Int))
    else if c = '+' then
      let p := takeDigs r
      if p.1 = [] then none else some ((evalDigs p.1 : Int))
    else
      let p := takeDigs (c :: r)
      if p.1 = [] then none else some ((evalDigs p.1 : Int))

/-- C `atoi`: as `parseSigned`, but a parse failure yields `0`. -/
def atoiChars (l : List Char) : Int := (parseSigned l).getD 0

/-- `std::stoi`: `none` models the thrown `std::invalid_argument`. -/
def stoiChars (l : List Char) : Option Int := parseSigned l

/-- Digit characters of a positive natural, with structural fuel. -/
def natToCharsAux : Nat → Nat → List Char
  | 0, _ => []
  | _ + 1, 0 => []
  | fuel + 1, n + 1 =>
    natToCharsAux fuel ((n + 1) / 10) ++ [Char.ofNat (48 + (n + 1) % 10)]

/-- Decimal rendering of a natural number (`std::to_string` on naturals). -/
def natToChars (n : Nat) : List Char := if n = 0 then ['0'] else natToCharsAux n n

/-- `std::to_string` on a C `int`. -/
def intToChars (v : Int) : List Char :=
  if v < 0 then '-' :: natToChars v.natAbs else natToChars v.toNat

/- ### Prefix and substring tests (`strncmp`, `std::string::compare`, `strstr`) -/

/-- `isPre pat l`: `pat` is a prefix of `l` (the `strncmp(pat, l, |pat|) == 0`
and `compare(0, |pat|, l, 0, |pat|) == 0` idiom). -/
def isPre : List Char → List Char → Bool
  | [], _ => true
  | _ :: _, [] => false
  | p :: ps, c :: cs => p = c && isPre ps cs

/-- `hasSub pat l`: `pat` occurs as a contiguous substring of `l` (`strstr`). -/
def hasSub (pat : List Char) : List Char → Bool
  | [] => isPre pat []
  | c :: cs => isPre pat (c :: cs) || hasSub pat cs

/-- Strip the prefix `pat` from `l`, or `none` when `pat` is not a prefix. -/
def stripPre : List Char → List Char → Option (List Char)
  | [], l => some l
  | _ :: _, [] => none
  | p :: ps, c :: cs => if p = c then stripPre ps cs else none

/- ### Fixed strings of the source -/

/-- `constexpr char kDevicePath[] = "/dev/"`. -/
def kDevicePath : List Char := s2l ("/dev/")

/-- `constexpr char kPrefix[] = "video"`. -/
def kPrefix : List Char := s2l ("video")

/-- `kPrefixLen = sizeof(kPrefix) - 1 = 5`. -/
def kPrefixLen : Nat := kPrefix.length

/-- `kDevicePrefixLen = sizeof(kDevicePath) + kPrefixLen - 1 = 10`
(the AIDL provider's offset of the numeric suffix in "/dev/videoN"). -/
def kDevicePrefixLen : Nat := kDevicePath.length + kPrefixLen

/- ### `matchDeviceName`: the `kDeviceNameRE` regex plus `std::stoi` -/

/-- The anchored match of `kDeviceNameRE =
"device@([0-9]+\.[0-9]+)/external/(.+)"`: on success returns the version
group and the id group. The version is a maximal digit run, a dot, a
maximal digit run (deterministic: `.` and `/` are not digits); the id
group `(.+)` is any nonempty run of characters other than the line
terminators excluded by the ECMAScript `.`. -/
def matchShape (l : List Char) : Option (List Char × List Char) :=
  match stripPre (s2l ("device@")) l with
  | none => none
  | some r1 =>
    let p1 := takeDigs r1
    if p1.1 = [] then none
    else
      match p1.2 with
      | '.' :: r3 =>
        let p2 := takeDigs r3
        if p2.1 = [] then none
        else
          match stripPre (s2l ("/external/")) p2.2 with
          | none => none
          | some id =>
            if id = [] then none
            else if id.any (fun c => c = '\n' || c = '\r') then none
            else some (p1.1 ++ '.' :: p2.1, id)
      | _ => none

/-- Outcome of `matchDeviceName`:
`noMatch` = the regex did not match (the function returns `false`);
`stoiThrow` = the regex matched but `std::stoi(sm[2])` threw
`std::invalid_argument` (no digits in the id group) — the exception
escapes `matchDeviceName` and its caller;
`ok version path` = match succeeded, with the out-parameters
`*deviceVersion` and `*cameraDevicePath`. -/
inductive MatchOut
  | noMatch
  | stoiThrow
  | ok (version : List Char) (path : List Char)
  deriving DecidableEq, Repr

/-- `matchDeviceName` of `ExternalCameraProvider.cpp` (both out-parameters
non-null, as at its call sites): regex-match the device name, then compute
`"/dev/video" + std::to_string(std::stoi(sm[2]) - cameraIdOffset)`. -/
def matchDeviceName (cameraIdOffset : Int) (deviceName : List Char) : MatchOut :=
  match matchShape deviceName with
  | none => .noMatch
  | some (version, id) =>
    match stoiChars id with
    | none => .stoiThrow
    | some n => .ok version (s2l ("/dev/video") ++ intToChars (n - cameraIdOffset))

/- ### Presence registry (`mCameraStatusMap`) and provider state -/

/-- `aidl::android::hardware::camera::common::CameraDeviceStatus`
(`NOT_PRESENT = 0` is the value-initialized default of `operator[]`). -/
inductive CameraDeviceStatus
  | NOT_PRESENT
  | PRESENT
  deriving DecidableEq, Repr

/-- `aidl::android::hardware::camera::common::Status` values used here. -/
inductive Status
  | OK
  | ILLEGAL_ARGUMENT
  | INTERNAL_ERROR
  deriving DecidableEq, Repr

/-- One entry of `std::map<std::string, CameraDeviceStatus>`. -/
abbrev KV := List Char × CameraDeviceStatus

/-- A notification delivered to the callback:
`cameraDeviceStatusChange(deviceName, status)`. -/
abbrev Notif := List Char × CameraDeviceStatus

/-- `map[k] = v`: replace the value at `k`, or insert `k ↦ v` when absent. -/
def mapSet : List KV → List Char → CameraDeviceStatus → List KV
  | [], k, v => [(k, v)]
  | (k', v') :: t, k, v =>
    if k' = k then (k, v) :: t else (k', v') :: mapSet t k v

/-- `map.erase(k)`: remove the entries keyed `k`. -/
def mapErase : List KV → List Char → List KV
  | [], _ => []
  | (k', v') :: t, k => if k' = k then mapErase t k else (k', v') :: mapErase t k

/-- `map.count(k)`: number of entries keyed `k` (`0` or `1` for a `std::map`). -/
def countKey : List KV → List Char → Nat
  | [], _ => 0
  | (k', _) :: t, k => (if k' = k then 1 else 0) + countKey t k

/-- Read-only lookup of the status stored for a key. -/
def lookupStatus : List KV → List Char → Option CameraDeviceStatus
  | [], _ => none
  | (k', v') :: t, k => if k' = k then some v' else lookupStatus t k

/-- `map[k]` as an rvalue: `std::map::operator[]` value-initializes a
missing entry (to `NOT_PRESENT`) before returning a reference, so it
returns the value *and* the possibly-extended map. -/
def mapIndex : List KV → List Char → CameraDeviceStatus × List KV
  | [], k => (.NOT_PRESENT, [(k, .NOT_PRESENT)])
  | (k', v') :: t, k =>
    if k' = k then (v', (k', v') :: t)
    else
      let p := mapIndex t k
      (p.1, (k', v') :: p.2)

/-- The provider state shared between the binder context and the hotplug
thread: the presence registry `mCameraStatusMap` and whether a callback is
currently attached (`mCallback != nullptr`). -/
structure ProviderState where
  cameraStatusMap : List KV
  callback : Bool
  deriving DecidableEq, Repr

/-- The immutable configuration (`ExternalCameraConfig` fields used here,
plus the device-version string baked into device names). -/
structure Cfg where
  cameraIdOffset : Int
  mInternalDevices : List (List Char)
  kDeviceVersion : List Char
  deriving DecidableEq, Repr

/- ### Kernel environment -/

/-- Results of the kernel-facing effects, fixed for one run: what each
file read, open, ioctl and directory listing would return. -/
structure DevEnv where
  /-- `ReadFileToString(path)`: `none` = read failure. -/
  readFile : List Char → Option (List Char)
  /-- `open(devName, O_RDWR | O_NONBLOCK)` succeeds. -/
  openNB : List Char → Bool
  /-- `ioctl(VIDIOC_QUERYCAP)` in `isExternalDevice`: `none` = failure,
  `some d` = success with driver string `d` (`vidCap.driver`). -/
  querycap : List Char → Option (List Char)
  /-- `ioctl(VIDIOC_ENUM_FMT)` succeeds. -/
  enumFmt : List Char → Bool
  /-- `open(devName, O_RDWR)` in `deviceAdded` succeeds. -/
  openRW : List Char → Bool
  /-- `ioctl(VIDIOC_QUERYCAP)` in `deviceAdded`: `none` = failure,
  `some caps` = success with `capability.device_caps = caps`. -/
  querycap2 : List Char → Option Nat
  /-- `ExternalCameraDevice(devName, cfg)` constructs with
  `!isInitFailed()`. -/
  initOk : List Char → Bool
  /-- `readdir` entries of `/dev/`. -/
  dirList : List (List Char)

/- ### Classifier: `isExternalDevice` -/

/-- `"amphion-vpu-decoder"`. -/
def kDecoderName : List Char := s2l ("amphion-vpu-decoder")

/-- `"amphion-vpu-encoder"`. -/
def kEncoderName : List Char := s2l ("amphion-vpu-encoder")

/-- `"mxc_isi.6.capture"`, the hardcoded HDMI-RX node name prefix. -/
def kHdmiRxName : List Char := s2l ("mxc_isi.6.capture")

/-- The probing effects `isExternalDevice` performs, in order. -/
inductive ProbeStep
  | readName
  | openDev
  | queryCap
  | enumFmtStep
  | readName2
  deriving DecidableEq, Repr

/-- Result of `isExternalDevice`: the returned `bool`, the `*isHdmiRx`
out-parameter (`false` when the caller passed `NULL`), and the trace of
probing effects performed, in order. -/
structure ExtResult where
  res : Bool
  hdmiRx : Bool
  trace : List ProbeStep
  deriving DecidableEq, Repr

/-- `ExternalCameraProvider::isExternalDevice(devName, sysClassName,
isHdmiRx)` of the AIDL provider: read the sys-class name file and bail out
(`false`) on the amphion decoder/encoder prefixes, then open the node
non-blocking, `VIDIOC_QUERYCAP`, and branch on the driver string: a
driver containing `"uvc"` is external iff `VIDIOC_ENUM_FMT` succeeds; a
driver containing `"cap"` re-reads the name file and is external (and
HDMI-RX) iff it starts with `"mxc_isi.6.capture"`; anything else is not
external. -/
def isExternalDevice (env : DevEnv) (devName sysClassName : List Char) : ExtResult :=
  match env.readFile sysClassName with
  | none => ⟨false, false, [.readName]⟩
  | some video_name =>
    if isPre kDecoderName video_name || isPre kEncoderName video_name then
      ⟨false, false, [.readName]⟩
    else if !(env.openNB devName) then
      ⟨false, false, [.readName, .openDev]⟩
    else
      match env.querycap devName with
      | none => ⟨false, false, [.readName, .openDev, .queryCap]⟩
      | some driver =>
        if hasSub (s2l ("uvc")) driver then
          if env.enumFmt devName then
            ⟨true, false, [.readName, .openDev, .queryCap, .enumFmtStep]⟩
          else
            ⟨false, false, [.readName, .openDev, .queryCap, .enumFmtStep]⟩
        else if hasSub (s2l ("cap")) driver then
          match env.readFile sysClassName with
          | none => ⟨false, false, [.readName, .openDev, .queryCap, .readName2]⟩
          | some buffer =>
            if isPre kHdmiRxName buffer then
              ⟨true, true, [.readName, .openDev, .queryCap, .readName2]⟩
            else
              ⟨false, false, [.readName, .openDev, .queryCap, .readName2]⟩
        else ⟨false, false, [.readName, .openDev, .queryCap]⟩

/- ### Provider facade operations -/

/-- The logical device name `addExternalCamera` and `deviceRemoved` derive
from a node path: `"device@" + kDeviceVersion + "/external/" +
std::to_string(cameraIdOffset + atoi(devName + kDevicePrefixLen))`. -/
def deviceNameOf (cfg : Cfg) (devName : List Char) : List Char :=
  s2l ("device@") ++ cfg.kDeviceVersion ++ s2l ("/external/") ++
    intToChars (cfg.cameraIdOffset + atoiChars (devName.drop kDevicePrefixLen))

/-- `ExternalCameraProvider::addExternalCamera(devName)`: store
`deviceName ↦ PRESENT` and, when a callback is attached, fire one
`cameraDeviceStatusChange(deviceName, PRESENT)` — unconditionally, also
when the entry was already present. Returns the new state and the
notifications fired. -/
def addExternalCamera (cfg : Cfg) (s : ProviderState) (devName : List Char) :
    ProviderState × List Notif :=
  let deviceName := deviceNameOf cfg devName
  ({ s with cameraStatusMap := mapSet s.cameraStatusMap deviceName .PRESENT },
   if s.callback then [(deviceName, .PRESENT)] else [])

/-- `ExternalCameraProvider::deviceRemoved(devName)`: erase the derived
device name; when `erase` removed nothing (`== 0`), log and return without
firing the callback. Returns whether a removal occurred, the new state
and the notifications fired. -/
def deviceRemoved (cfg : Cfg) (s : ProviderState) (devName : List Char) :
    Bool × ProviderState × List Notif :=
  let deviceName := deviceNameOf cfg devName
  if countKey s.cameraStatusMap deviceName = 0 then
    (false, s, [])
  else
    (true, { s with cameraStatusMap := mapErase s.cameraStatusMap deviceName },
     if s.callback then [(deviceName, .NOT_PRESENT)] else [])

/-- `ExternalCameraProvider::setCallback(callback)`: replace `mCallback`;
when the new callback is non-null, replay `cameraDeviceStatusChange` for
every entry of `mCameraStatusMap` with its stored status. -/
def setCallback (s : ProviderState) (callback : Bool) : ProviderState × List Notif :=
  let s' := { s with callback := callback }
  if callback then (s', s'.cameraStatusMap) else (s', [])

/-- `ExternalCameraProvider::getCameraIdList`: always `OK` with an empty
list — present external cameras are only reported via callbacks. -/
def getCameraIdList (_s : ProviderState) : Status × List (List Char) := (.OK, [])

/-- `ExternalCameraProvider::getVendorTags`: always `OK` with an empty
section list. -/
def getVendorTags (_s : ProviderState) : Status × List (List Char) := (.OK, [])

/-- Outcome of `getCameraDeviceInterface`: a returned status with the
out-parameter (the constructed device is identified by its node path), or
an escaped `std::stoi` exception. -/
inductive CallOut
  | ret (st : Status) (dev : Option (List Char))
  | thrown
  deriving DecidableEq, Repr

/-- `ExternalCameraProvider::getCameraDeviceInterface(cameraDeviceName)`:
parse the name (`ILLEGAL_ARGUMENT` on no match); reject ids that are
absent or not `PRESENT` (`ILLEGAL_ARGUMENT`; note the short-circuit:
`operator[]` runs only when `count != 0`); construct the device and map
an init failure to `INTERNAL_ERROR`. Returns the outcome and the
resulting provider state. -/
def getCameraDeviceInterface (env : DevEnv) (cfg : Cfg) (s : ProviderState)
    (cameraDeviceName : List Char) : CallOut × ProviderState :=
  match matchDeviceName cfg.cameraIdOffset cameraDeviceName with
  | .noMatch => (.ret .ILLEGAL_ARGUMENT none, s)
  | .stoiThrow => (.thrown, s)
  | .ok _version cameraDevicePath =>
    if countKey s.cameraStatusMap cameraDeviceName = 0 then
      (.ret .ILLEGAL_ARGUMENT none, s)
    else
      let p := mapIndex s.cameraStatusMap cameraDeviceName
      let s' := { s with cameraStatusMap := p.2 }
      if p.1 ≠ .PRESENT then (.ret .ILLEGAL_ARGUMENT none, s')
      else if env.initOk cameraDevicePath then (.ret .OK (some cameraDevicePath), s')
      else (.ret .INTERNAL_ERROR none, s')

/- ### Discovery worker -/

/-- `V4L2_CAP_VIDEO_CAPTURE`. -/
def V4L2_CAP_VIDEO_CAPTURE : Nat := 1

/-- `V4L2_CAP_VIDEO_CAPTURE_MPLANE`. -/
def V4L2_CAP_VIDEO_CAPTURE_MPLANE : Nat := 4096

/-- The `/sys/class/video4linux/<entry>/name` path built for an entry. -/
def camPathOf (entry : List Char) : List Char :=
  s2l ("/sys/class/video4linux/") ++ entry ++ s2l ("/name")

/-- `ExternalCameraProvider::deviceAdded(devName)`: open the node
read-write, `VIDIOC_QUERYCAP`, require a `VIDEO_CAPTURE` capability bit,
trial-construct an `ExternalCameraDevice`, and only then
`addExternalCamera`; every failure silently suppresses the registration. -/
def deviceAdded (env : DevEnv) (cfg : Cfg) (s : ProviderState) (devName : List Char) :
    ProviderState × List Notif :=
  if !(env.openRW devName) then (s, [])
  else
    match env.querycap2 devName with
    | none => (s, [])
    | some caps =>
      if caps &&& (V4L2_CAP_VIDEO_CAPTURE ||| V4L2_CAP_VIDEO_CAPTURE_MPLANE) = 0 then (s, [])
      else if !(env.initOk devName) then (s, [])
      else addExternalCamera cfg s devName

/-- Accumulator of a scan or watch loop: provider state, notifications
fired so far, and the node paths handed to `isExternalDevice` so far (the
probe trace used to state "never classified/probed" properties). -/
structure LoopAcc where
  st : ProviderState
  notifs : List Notif
  probes : List (List Char)
  deriving DecidableEq, Repr

/-- One directory entry of the initial scan in `updateAttachedCameras`:
entries not starting with `"video"` are skipped; entries whose suffix is
in `mInternalDevices` are skipped silently; otherwise the node is
classified with `isExternalDevice` and, on a positive classification,
registered via `deviceAdded`. -/
def scanStep (env : DevEnv) (cfg : Cfg) (a : LoopAcc) (entry : List Char) : LoopAcc :=
  if !(isPre kPrefix entry) then a
  else
    let deviceId := entry.drop kPrefixLen
    if deviceId ∈ cfg.mInternalDevices then a
    else
      let v4l2DevicePath := kDevicePath ++ entry
      let mCamDevice := camPathOf entry
      let r := isExternalDevice env v4l2DevicePath mCamDevice
      if r.res then
        let p := deviceAdded env cfg a.st v4l2DevicePath
        ⟨p.1, a.notifs ++ p.2, a.probes ++ [v4l2DevicePath]⟩
      else ⟨a.st, a.notifs, a.probes ++ [v4l2DevicePath]⟩

/-- `ExternalCameraProvider::updateAttachedCameras`: the initial full scan
of the `/dev/` directory listing. -/
def updateAttachedCameras (env : DevEnv) (cfg : Cfg) (s : ProviderState) : LoopAcc :=
  env.dirList.foldl (scanStep env cfg) ⟨s, [], []⟩

/-- The re-scan performed on a `cec*` CREATE event: walk the directory
listing, probe every `"video"`-prefixed entry (after the 800 ms settle
delay) and stop at the first one classified external *and* HDMI-RX,
registering it via `deviceAdded` and remembering its node path
(`mHdmiRxNode`). Returns state, remembered path (if found), notifications
and probed paths. -/
def findHdmiRx (env : DevEnv) (cfg : Cfg) (s : ProviderState) :
    List (List Char) → ProviderState × Option (List Char) × List Notif × List (List Char)
  | [] => (s, none, [], [])
  | entry :: rest =>
    if isPre kPrefix entry then
      let v4l2DevicePath := kDevicePath ++ entry
      let r := isExternalDevice env v4l2DevicePath (camPathOf entry)
      if r.res && r.hdmiRx then
        let p := deviceAdded env cfg s v4l2DevicePath
        (p.1, some v4l2DevicePath, p.2, [v4l2DevicePath])
      else
        let q := findHdmiRx env cfg s rest
        (q.1, q.2.1, q.2.2.1, v4l2DevicePath :: q.2.2.2)
    else findHdmiRx env cfg s rest

/-- An inotify event as parsed from the read buffer: the affected entry
name and whether its mask holds `IN_CREATE` or `IN_DELETE`. -/
inductive EvKind
  | create
  | delete
  deriving DecidableEq, Repr

/-- A filesystem watch event. -/
structure Ev where
  name : List Char
  kind : EvKind
  deriving DecidableEq, Repr

/-- Accumulator threaded through the events of one `threadLoop`
invocation: the loop accumulator plus the invocation-local `mHdmiRxNode`
buffer (`none` = still uninitialized). -/
structure WatchAcc where
  acc : LoopAcc
  hdmiRxNode : Option (List Char)
  deriving DecidableEq, Repr

/-- The `"cec"` block of the AIDL `threadLoop` inner loop. `garbage` is
the content read from the `mHdmiRxNode` buffer when it is used before
anything was stored in it (the buffer is a local of `threadLoop` and is
not initialized). On CREATE the directory re-scan of `findHdmiRx` runs
(storing the found node path in `mHdmiRxNode`); on DELETE
`deviceRemoved(mHdmiRxNode)` runs. -/
def cecStep (env : DevEnv) (cfg : Cfg) (garbage : List Char) (w : WatchAcc) (ev : Ev) :
    WatchAcc :=
  if isPre (s2l ("cec")) ev.name then
    match ev.kind with
    | .create =>
      let q := findHdmiRx env cfg w.acc.st env.dirList
      { acc := ⟨q.1, w.acc.notifs ++ q.2.2.1, w.acc.probes ++ q.2.2.2⟩,
        hdmiRxNode := match q.2.1 with | some p => some p | none => w.hdmiRxNode }
    | .delete =>
      let target := w.hdmiRxNode.getD garbage
      let p := deviceRemoved cfg w.acc.st target
      { w with acc := ⟨p.2.1, w.acc.notifs ++ p.2.2, w.acc.probes⟩ }
  else w

/-- The `"video"` block of the AIDL `threadLoop` inner loop: a
`"video"`-prefixed name whose suffix is not internal is classified on
CREATE (after the 100 ms settle delay) and registered when external, and
passed to `deviceRemoved` on DELETE. -/
def videoStep (env : DevEnv) (cfg : Cfg) (w1 : WatchAcc) (ev : Ev) : WatchAcc :=
  if !(isPre kPrefix ev.name) then w1
  else
    let deviceId := ev.name.drop kPrefixLen
    if deviceId ∈ cfg.mInternalDevices then w1
    else
      let v4l2DevicePath := kDevicePath ++ ev.name
      let mCamDevice := camPathOf ev.name
      match ev.kind with
      | .create =>
        let r := isExternalDevice env v4l2DevicePath mCamDevice
        let a2 : LoopAcc := ⟨w1.acc.st, w1.acc.notifs, w1.acc.probes ++ [v4l2DevicePath]⟩
        if r.res then
          let p := deviceAdded env cfg a2.st v4l2DevicePath
          { w1 with acc := ⟨p.1, a2.notifs ++ p.2, a2.probes⟩ }
        else { w1 with acc := a2 }
      | .delete =>
        let p := deviceRemoved cfg w1.acc.st v4l2DevicePath
        { w1 with acc := ⟨p.2.1, w1.acc.notifs ++ p.2.2, w1.acc.probes⟩ }

/-- One event of the AIDL `HotplugThread::threadLoop` inner loop: the
`"cec"` block runs first, then the `"video"` block (two sequential `if`
statements in the source). -/
def eventStep (env : DevEnv) (cfg : Cfg) (garbage : List Char) (w : WatchAcc) (ev : Ev) :
    WatchAcc :=
  videoStep env cfg (cecStep env cfg garbage w ev) ev

/-- One invocation of the AIDL `HotplugThread::threadLoop` that found
events in its read buffer: process the parsed events in order. The
`mHdmiRxNode` buffer is a local variable of `threadLoop`, so it starts
uninitialized (`none`) on every invocation and its final value is
discarded when the invocation returns. -/
def threadLoopInvocation (env : DevEnv) (cfg : Cfg) (s : ProviderState)
    (events : List Ev) (garbage : List Char) : LoopAcc :=
  (events.foldl (eventStep env cfg garbage) ⟨⟨s, [], []⟩, none⟩).acc

/- ### Digit and parsing lemmas -/

/-- A digit character is not whitespace. -/
lemma isWs_false_of_isDig (c : Char) (h : isDig c = true) : isWs c = false := by
  simp only [isDig, Bool.and_eq_true, decide_eq_true_eq] at h
  simp only [isWs, Bool.or_eq_false_iff, decide_eq_false_iff_not]
  omega

/-- A digit character is not a sign character. -/
lemma ne_sign_of_isDig (c : Char) (h : isDig c = true) : c ≠ '-' ∧ c ≠ '+' := by
  simp only [isDig, Bool.and_eq_true, decide_eq_true_eq] at h
  constructor <;> rintro rfl <;> revert h <;> decide

/-- `skipWs` is the identity on a digit-headed list. -/
lemma skipWs_digit_head (c : Char) (r : List Char) (h : isDig c = true) :
    skipWs (c :: r) = c :: r := by
  simp [skipWs, isWs_false_of_isDig c h]

/-- `takeDigs` splits an all-digit run from a non-digit-headed remainder. -/
lemma takeDigs_append (l r : List Char) (hl : ∀ c ∈ l, isDig c = true)
    (hr : ∀ c cs, r = c :: cs → isDig c = false) : takeDigs (l ++ r) = (l, r) := by
  induction l with
  | nil =>
    cases hr' : r with
    | nil => simp [takeDigs]
    | cons c cs => simp [takeDigs, hr c cs hr']
  | cons c l ih =>
    have hc : isDig c = true := hl c (by simp)
    have ih' := ih (fun x hx => hl x (by simp [hx]))
    simp only [List.cons_append, takeDigs, hc, if_true, List.append_eq, ih']

/-- `takeDigs` consumes an all-digit list entirely. -/
lemma takeDigs_all (l : List Char) (hl : ∀ c ∈ l, isDig c = true) :
    takeDigs l = (l, []) := by
  have := takeDigs_append l [] hl (by intro c cs h; cases h)
  simpa using this

/-- `evalDigs` over an appended final digit. -/
lemma evalDigs_append_single (l : List Char) (c : Char) :
    evalDigs (l ++ [c]) = 10 * evalDigs l + (c.toNat - 48) := by
  simp [evalDigs, List.foldl_append]

/-- The digit character of `d < 10` round-trips through `toNat` and is a digit. -/
lemma digitChar_spec (d : Nat) (hd : d < 10) :
    (Char.ofNat (48 + d)).toNat = 48 + d ∧ isDig (Char.ofNat (48 + d)) = true := by
  interval_cases d <;> exact ⟨by decide, by decide⟩

/-- `natToCharsAux` of `0` is empty. -/
lemma natToCharsAux_zero (fuel : Nat) : natToCharsAux fuel 0 = [] := by
  cases fuel <;> rfl

/-- Specification of `natToCharsAux` on positive inputs with enough fuel:
it evaluates back to its input, is nonempty, and is all digits. -/
lemma natToCharsAux_spec (fuel : Nat) : ∀ n, 0 < n → n ≤ fuel →
    evalDigs (natToCharsAux fuel n) = n ∧ natToCharsAux fuel n ≠ [] ∧
      ∀ c ∈ natToCharsAux fuel n, isDig c = true := by
  induction fuel with
  | zero => intro n h1 h2; omega
  | succ f ih =>
    intro n h1 h2
    obtain ⟨k, rfl⟩ : ∃ k, n = k + 1 := ⟨n - 1, by omega⟩
    have hmod : (k + 1) % 10 < 10 := Nat.mod_lt _ (by omega)
    obtain ⟨hch, hchd⟩ := digitChar_spec ((k + 1) % 10) hmod
    simp only [natToCharsAux]
    by_cases hdiv : (k + 1) / 10 = 0
    · rw [hdiv, natToCharsAux_zero]
      have hk : k + 1 < 10 := by omega
      refine ⟨?_, by simp, ?_⟩
      · rw [evalDigs_append_single, hch]
        simp [evalDigs]
        omega
      · intro c hc
        simp only [List.nil_append, List.mem_singleton] at hc
        rw [hc]; exact hchd
    · have hlt : (k + 1) / 10 ≤ f := by
        have := Nat.div_lt_self (by omega : 0 < k + 1) (by omega : 1 < 10)
        omega
      obtain ⟨ihe, ihne, ihd⟩ := ih ((k + 1) / 10) (by omega) hlt
      refine ⟨?_, by simp, ?_⟩
      · rw [evalDigs_append_single, ihe, hch]
        omega
      · intro c hc
        rcases List.mem_append.mp hc with h | h
        · exact ihd c h
        · simp only [List.mem_singleton] at h
          rw [h]; exact hchd

/-- `evalDigs` inverts `natToChars`. -/
lemma evalDigs_natToChars (n : Nat) : evalDigs (natToChars n) = n := by
  by_cases h : n = 0
  · subst h; decide
  · simp only [natToChars, h, if_false]
    exact (natToCharsAux_spec n n (by omega) (le_refl n)).1

/-- `natToChars` is nonempty. -/
lemma natToChars_ne_nil (n : Nat) : natToChars n ≠ [] := by
  by_cases h : n = 0
  · subst h; decide
  · simp only [natToChars, h, if_false]
    exact (natToCharsAux_spec n n (by omega) (le_refl n)).2.1

/-- `natToChars` is all digits. -/
lemma natToChars_all_dig (n : Nat) : ∀ c ∈ natToChars n, isDig c = true := by
  by_cases h : n = 0
  · subst h
    intro c hc
    rw [show natToChars 0 = ['0'] from rfl] at hc
    simp only [List.mem_singleton] at hc
    rw [hc]; decide
  · simp only [natToChars, h, if_false]
    exact (natToCharsAux_spec n n (by omega) (le_refl n)).2.2

/-- `parseSigned` accepts a nonempty all-digit list at its value. -/
lemma parseSigned_digits (l : List Char) (hne : l ≠ [])
    (hl : ∀ c ∈ l, isDig c = true) : parseSigned l = some ((evalDigs l : Nat) : Int) := by
  cases l with
  | nil => exact absurd rfl hne
  | cons c r =>
    have hc : isDig c = true := hl c (by simp)
    obtain ⟨hm, hp⟩ := ne_sign_of_isDig c hc
    simp only [parseSigned, skipWs_digit_head c r hc]
    rw [takeDigs_all (c :: r) hl]
    simp [hm, hp]

/-- `std::stoi` inverts `std::to_string` on naturals. -/
lemma stoiChars_natToChars (n : Nat) : stoiChars (natToChars n) = some (n : Int) := by
  rw [stoiChars, parseSigned_digits (natToChars n) (natToChars_ne_nil n) (natToChars_all_dig n),
    evalDigs_natToChars]

/-- `atoi` inverts `std::to_string` on naturals. -/
lemma atoiChars_natToChars (n : Nat) : atoiChars (natToChars n) = (n : Int) := by
  rw [atoiChars, parseSigned_digits (natToChars n) (natToChars_ne_nil n) (natToChars_all_dig n),
    evalDigs_natToChars]
  rfl

/-- `std::to_string` of a nonnegative `int` is the natural's rendering. -/
lemma intToChars_ofNat (n : Nat) : intToChars (n : Int) = natToChars n := by
  rw [intToChars, if_neg (by exact Int.not_lt.mpr (Int.natCast_nonneg n))]
  simp

/- ### Prefix lemmas -/

/-- Stripping a literal prefix from a string built on it. -/
lemma stripPre_append (p r : List Char) : stripPre p (p ++ r) = some r := by
  induction p with
  | nil => rfl
  | cons c p ih => simp [stripPre, ih]

/- ### Registry map lemmas -/

/-- Every key of `mapSet m k v` is `k` or a key of `m`. -/
lemma keys_mapSet_subset (m : List KV) (k : List Char) (v : CameraDeviceStatus) :
    ∀ x ∈ (mapSet m k v).map Prod.fst, x = k ∨ x ∈ m.map Prod.fst := by
  induction m with
  | nil =>
    intro x hx
    simp only [mapSet, List.map_cons, List.map_nil, List.mem_singleton] at hx
    exact Or.inl hx
  | cons p t ih =>
    obtain ⟨k', v'⟩ := p
    intro x hx
    simp only [mapSet] at hx
    by_cases h : k' = k
    · rw [if_pos h] at hx
      simp only [List.map_cons, List.mem_cons] at hx
      rcases hx with h' | h'
      · exact Or.inl h'
      · exact Or.inr (List.mem_cons_of_mem _ h')
    · rw [if_neg h] at hx
      simp only [List.map_cons, List.mem_cons] at hx
      rcases hx with h' | h'
      · exact Or.inr (List.mem_cons.mpr (Or.inl h'))
      · rcases ih x h' with h'' | h''
        · exact Or.inl h''
        · exact Or.inr (List.mem_cons_of_mem _ h'')

/-- Every key of `mapErase m k` is a key of `m`. -/
lemma keys_mapErase_subset (m : List KV) (k : List Char) :
    ∀ x ∈ (mapErase m k).map Prod.fst, x ∈ m.map Prod.fst := by
  induction m with
  | nil => intro x hx; exact absurd hx (by simp [mapErase])
  | cons p t ih =>
    obtain ⟨k', v'⟩ := p
    intro x hx
    simp only [mapErase] at hx
    by_cases h : k' = k
    · rw [if_pos h] at hx
      exact List.mem_cons_of_mem _ (ih x hx)
    · rw [if_neg h] at hx
      simp only [List.map_cons, List.mem_cons] at hx
      rcases hx with h' | h'
      · exact List.mem_cons.mpr (Or.inl h')
      · exact List.mem_cons_of_mem _ (ih x h')

/-- Every entry of `mapSet m k v` is `(k, v)` or an entry of `m`. -/
lemma mem_mapSet (m : List KV) (k : List Char) (v : CameraDeviceStatus) :
    ∀ p ∈ mapSet m k v, p = (k, v) ∨ p ∈ m := by
  induction m with
  | nil =>
    intro p hp
    simp only [mapSet, List.mem_singleton] at hp
    exact Or.inl hp
  | cons q t ih =>
    obtain ⟨k', v'⟩ := q
    intro p hp
    simp only [mapSet] at hp
    by_cases h : k' = k
    · rw [if_pos h] at hp
      rcases List.mem_cons.mp hp with h' | h'
      · exact Or.inl h'
      · exact Or.inr (List.mem_cons_of_mem _ h')
    · rw [if_neg h] at hp
      rcases List.mem_cons.mp hp with h' | h'
      · exact Or.inr (List.mem_cons.mpr (Or.inl h'))
      · rcases ih p h' with h'' | h''
        · exact Or.inl h''
        · exact Or.inr (List.mem_cons_of_mem _ h'')

/-- Every entry of `mapErase m k` is an entry of `m`. -/
lemma mem_mapErase (m : List KV) (k : List Char) :
    ∀ p ∈ mapErase m k, p ∈ m := by
  induction m with
  | nil => intro p hp; exact absurd hp (by simp [mapErase])
  | cons q t ih =>
    obtain ⟨k', v'⟩ := q
    intro p hp
    simp only [mapErase] at hp
    by_cases h : k' = k
    · rw [if_pos h] at hp
      exact List.mem_cons_of_mem _ (ih p hp)
    · rw [if_neg h] at hp
      rcases List.mem_cons.mp hp with h' | h'
      · exact List.mem_cons.mpr (Or.inl h')
      · exact List.mem_cons_of_mem _ (ih p h')

/-- `countKey` is zero exactly when the key is absent. -/
lemma countKey_eq_zero_iff (m : List KV) (k : List Char) :
    countKey m k = 0 ↔ k ∉ m.map Prod.fst := by
  induction m with
  | nil => simp [countKey]
  | cons p t ih =>
    obtain ⟨k', v'⟩ := p
    simp only [countKey, List.map_cons, List.mem_cons]
    by_cases h : k' = k
    · rw [if_pos h]
      constructor
      · intro h1; omega
      · intro h1; exact absurd (Or.inl h.symm) h1
    · rw [if_neg h]
      simp only [Nat.zero_add, ih]
      constructor
      · intro h1 h2
        rcases h2 with h2 | h2
        · exact h h2.symm
        · exact h1 h2
      · intro h1 h2
        exact h1 (Or.inr h2)

/-- Key-uniqueness is preserved by `mapSet`. -/
lemma nodup_keys_mapSet (m : List KV) (k : List Char) (v : CameraDeviceStatus)
    (h : (m.map Prod.fst).Nodup) : ((mapSet m k v).map Prod.fst).Nodup := by
  induction m with
  | nil => simp [mapSet]
  | cons p t ih =>
    obtain ⟨k', v'⟩ := p
    simp only [List.map_cons, List.nodup_cons] at h
    simp only [mapSet]
    by_cases hk : k' = k
    · rw [if_pos hk]
      simp only [List.map_cons, List.nodup_cons]
      exact ⟨by rw [← hk]; exact h.1, h.2⟩
    · rw [if_neg hk]
      simp only [List.map_cons, List.nodup_cons]
      refine ⟨fun hmem => ?_, ih h.2⟩
      rcases keys_mapSet_subset t k v k' hmem with h' | h'
      · exact hk h'
      · exact h.1 h'

/-- Key-uniqueness is preserved by `mapErase`. -/
lemma nodup_keys_mapErase (m : List KV) (k : List Char)
    (h : (m.map Prod.fst).Nodup) : ((mapErase m k).map Prod.fst).Nodup := by
  induction m with
  | nil => simp [mapErase]
  | cons p t ih =>
    obtain ⟨k', v'⟩ := p
    simp only [List.map_cons, List.nodup_cons] at h
    simp only [mapErase]
    by_cases hk : k' = k
    · rw [if_pos hk]
      exact ih h.2
    · rw [if_neg hk]
      simp only [List.map_cons, List.nodup_cons]
      exact ⟨fun hmem => h.1 (keys_mapErase_subset t k k' hmem), ih h.2⟩

/-- With unique keys, setting a key leaves exactly one entry for it. -/
lemma countKey_mapSet (m : List KV) (k : List Char) (v : CameraDeviceStatus)
    (h : (m.map Prod.fst).Nodup) : countKey (mapSet m k v) k = 1 := by
  induction m with
  | nil => simp [mapSet, countKey]
  | cons p t ih =>
    obtain ⟨k', v'⟩ := p
    simp only [List.map_cons, List.nodup_cons] at h
    simp only [mapSet]
    by_cases hk : k' = k
    · rw [if_pos hk]
      show (if k = k then 1 else 0) + countKey t k = 1
      rw [if_pos rfl]
      have h0 : countKey t k = 0 := by
        rw [countKey_eq_zero_iff]
        rw [← hk]; exact h.1
      omega
    · rw [if_neg hk]
      simp only [countKey, if_neg hk, Nat.zero_add]
      exact ih h.2

/-- Erasing an absent key is the identity. -/
lemma mapErase_absent (m : List KV) (k : List Char) (h : countKey m k = 0) :
    mapErase m k = m := by
  induction m with
  | nil => rfl
  | cons p t ih =>
    obtain ⟨k', v'⟩ := p
    simp only [countKey] at h
    by_cases hk : k' = k
    · rw [if_pos hk] at h; omega
    · rw [if_neg hk] at h
      simp only [mapErase]
      rw [if_neg hk, ih (by omega)]

/-- A found lookup means the entry is in the map. -/
lemma mem_of_lookupStatus (m : List KV) (k : List Char) (v : CameraDeviceStatus)
    (h : lookupStatus m k = some v) : (k, v) ∈ m := by
  induction m with
  | nil => exact absurd h (by simp [lookupStatus])
  | cons p t ih =>
    obtain ⟨k', v'⟩ := p
    simp only [lookupStatus] at h
    by_cases hk : k' = k
    · rw [if_pos hk] at h
      have hv : v' = v := Option.some.inj h
      rw [← hk, ← hv]
      exact List.mem_cons_self _ _
    · rw [if_neg hk] at h
      exact List.mem_cons_of_mem _ (ih h)

/-- A found lookup means the key count is nonzero. -/
lemma countKey_ne_zero_of_lookup (m : List KV) (k : List Char) (v : CameraDeviceStatus)
    (h : lookupStatus m k = some v) : countKey m k ≠ 0 := by
  intro h0
  exact (countKey_eq_zero_iff m k).mp h0
    (List.mem_map.mpr ⟨(k, v), mem_of_lookupStatus m k v h, rfl⟩)

/-- `operator[]` on a present key returns the map unchanged. -/
lemma mapIndex_present (m : List KV) (k : List Char) (h : countKey m k ≠ 0) :
    (mapIndex m k).2 = m := by
  induction m with
  | nil => exact absurd rfl h
  | cons p t ih =>
    obtain ⟨k', v'⟩ := p
    simp only [countKey] at h
    simp only [mapIndex]
    by_cases hk : k' = k
    · rw [if_pos hk]
    · rw [if_neg hk] at h ⊢
      rw [ih (by omega)]

/-- `operator[]` returns the looked-up value of a present key. -/
lemma mapIndex_val (m : List KV) (k : List Char) (v : CameraDeviceStatus)
    (h : lookupStatus m k = some v) : (mapIndex m k).1 = v := by
  induction m with
  | nil => exact absurd h (by simp [lookupStatus])
  | cons p t ih =>
    obtain ⟨k', v'⟩ := p
    simp only [lookupStatus] at h
    simp only [mapIndex]
    by_cases hk : k' = k
    · rw [if_pos hk] at h ⊢
      exact Option.some.inj h
    · rw [if_neg hk] at h ⊢
      exact ih h

/- ### The registry invariant and reachable states -/

/-- The registry invariant: the map stores only `PRESENT` (membership
*is* presence — removal is erasure, there is no tombstone value) and keys
are unique (`std::map` semantics). -/
def InvMap (m : List KV) : Prop :=
  (∀ p ∈ m, p.2 = CameraDeviceStatus.PRESENT) ∧ (m.map Prod.fst).Nodup

/-- The invariant lifted to the provider state. -/
def Inv (s : ProviderState) : Prop := InvMap s.cameraStatusMap

lemma inv_addExternalCamera (cfg : Cfg) (s : ProviderState) (d : List Char)
    (h : Inv s) : Inv (addExternalCamera cfg s d).1 := by
  show InvMap (mapSet s.cameraStatusMap (deviceNameOf cfg d) CameraDeviceStatus.PRESENT)
  refine ⟨?_, nodup_keys_mapSet _ _ _ h.2⟩
  intro p hp
  rcases mem_mapSet _ _ _ p hp with h' | h'
  · rw [h']
  · exact h.1 p h'

lemma inv_deviceRemoved (cfg : Cfg) (s : ProviderState) (d : List Char)
    (h : Inv s) : Inv (deviceRemoved cfg s d).2.1 := by
  simp only [deviceRemoved]
  split
  · exact h
  · show InvMap (mapErase s.cameraStatusMap (deviceNameOf cfg d))
    refine ⟨?_, nodup_keys_mapErase _ _ h.2⟩
    intro p hp
    exact h.1 p (mem_mapErase _ _ p hp)

lemma inv_setCallback (s : ProviderState) (b : Bool) (h : Inv s) :
    Inv (setCallback s b).1 := by
  simp only [setCallback]
  split <;> exact h

lemma inv_deviceAdded (env : DevEnv) (cfg : Cfg) (s : ProviderState) (d : List Char)
    (h : Inv s) : Inv (deviceAdded env cfg s d).1 := by
  simp only [deviceAdded]
  split
  · exact h
  · split
    · exact h
    · split
      · exact h
      · split
        · exact h
        · exact inv_addExternalCamera cfg s d h

lemma inv_getCameraDeviceInterface (env : DevEnv) (cfg : Cfg) (s : ProviderState)
    (n : List Char) (h : Inv s) : Inv (getCameraDeviceInterface env cfg s n).2 := by
  simp only [getCameraDeviceInterface]
  split
  · exact h
  · exact h
  · split
    · exact h
    · rename_i hc
      have hm : (mapIndex s.cameraStatusMap n).2 = s.cameraStatusMap :=
        mapIndex_present s.cameraStatusMap n hc
      split
      · show InvMap (mapIndex s.cameraStatusMap n).2
        rw [hm]; exact h
      · split
        · show InvMap (mapIndex s.cameraStatusMap n).2
          rw [hm]; exact h
        · show InvMap (mapIndex s.cameraStatusMap n).2
          rw [hm]; exact h

lemma inv_scanStep (env : DevEnv) (cfg : Cfg) (a : LoopAcc) (e : List Char)
    (h : Inv a.st) : Inv (scanStep env cfg a e).st := by
  simp only [scanStep]
  split
  · exact h
  · split
    · exact h
    · split
      · exact inv_deviceAdded env cfg a.st _ h
      · exact h

lemma inv_foldl_scanStep (env : DevEnv) (cfg : Cfg) :
    ∀ (l : List (List Char)) (a : LoopAcc), Inv a.st →
      Inv (l.foldl (scanStep env cfg) a).st := by
  intro l
  induction l with
  | nil => intro a h; exact h
  | cons e t ih =>
    intro a h
    exact ih (scanStep env cfg a e) (inv_scanStep env cfg a e h)

lemma inv_updateAttachedCameras (env : DevEnv) (cfg : Cfg) (s : ProviderState)
    (h : Inv s) : Inv (updateAttachedCameras env cfg s).st :=
  inv_foldl_scanStep env cfg env.dirList ⟨s, [], []⟩ h

lemma inv_findHdmiRx (env : DevEnv) (cfg : Cfg) :
    ∀ (l : List (List Char)) (s : ProviderState), Inv s →
      Inv (findHdmiRx env cfg s l).1 := by
  intro l
  induction l with
  | nil => intro s h; exact h
  | cons e t ih =>
    intro s h
    simp only [findHdmiRx]
    split
    · split
      · exact inv_deviceAdded env cfg s _ h
      · exact ih s h
    · exact ih s h

lemma inv_cecStep (env : DevEnv) (cfg : Cfg) (g : List Char) (w : WatchAcc) (ev : Ev)
    (h : Inv w.acc.st) : Inv (cecStep env cfg g w ev).acc.st := by
  simp only [cecStep]
  split
  · split
    · exact inv_findHdmiRx env cfg env.dirList w.acc.st h
    · exact inv_deviceRemoved cfg w.acc.st _ h
  · exact h

lemma inv_videoStep (env : DevEnv) (cfg : Cfg) (w1 : WatchAcc) (ev : Ev)
    (h : Inv w1.acc.st) : Inv (videoStep env cfg w1 ev).acc.st := by
  simp only [videoStep]
  split
  · exact h
  · split
    · exact h
    · split
      · split
        · exact inv_deviceAdded env cfg _ _ h
        · exact h
      · exact inv_deviceRemoved cfg w1.acc.st _ h

lemma inv_eventStep (env : DevEnv) (cfg : Cfg) (g : List Char) (w : WatchAcc) (ev : Ev)
    (h : Inv w.acc.st) : Inv (eventStep env cfg g w ev).acc.st :=
  inv_videoStep env cfg _ ev (inv_cecStep env cfg g w ev h)

lemma inv_foldl_eventStep (env : DevEnv) (cfg : Cfg) (g : List Char) :
    ∀ (evs : List Ev) (w : WatchAcc), Inv w.acc.st →
      Inv (evs.foldl (eventStep env cfg g) w).acc.st := by
  intro evs
  induction evs with
  | nil => intro w h; exact h
  | cons ev t ih =>
    intro w h
    exact ih (eventStep env cfg g w ev) (inv_eventStep env cfg g w ev h)

lemma inv_threadLoopInvocation (env : DevEnv) (cfg : Cfg) (s : ProviderState)
    (evs : List Ev) (g : List Char) (h : Inv s) :
    Inv (threadLoopInvocation env cfg s evs g).st :=
  inv_foldl_eventStep env cfg g evs ⟨⟨s, [], []⟩, none⟩ h

/-- Reachability of provider states, over-approximated: every state the
process can be in is generated from the empty initial state by the
operations that touch the registry (the discovery-worker entry points are
included even though their mutations factor through `addExternalCamera`
and `deviceRemoved`). -/
inductive Reachable : ProviderState → Prop
  | init : Reachable ⟨[], false⟩
  | setcb (s : ProviderState) (b : Bool) :
      Reachable s → Reachable (setCallback s b).1
  | add (cfg : Cfg) (s : ProviderState) (d : List Char) :
      Reachable s → Reachable (addExternalCamera cfg s d).1
  | devAdd (env : DevEnv) (cfg : Cfg) (s : ProviderState) (d : List Char) :
      Reachable s → Reachable (deviceAdded env cfg s d).1
  | remove (cfg : Cfg) (s : ProviderState) (d : List Char) :
      Reachable s → Reachable (deviceRemoved cfg s d).2.1
  | scan (env : DevEnv) (cfg : Cfg) (s : ProviderState) :
      Reachable s → Reachable (updateAttachedCameras env cfg s).st
  | watch (env : DevEnv) (cfg : Cfg) (s : ProviderState) (evs : List Ev) (g : List Char) :
      Reachable s → Reachable (threadLoopInvocation env cfg s evs g).st
  | getIface (env : DevEnv) (cfg : Cfg) (s : ProviderState) (n : List Char) :
      Reachable s → Reachable (getCameraDeviceInterface env cfg s n).2

/-- Every reachable state satisfies the registry invariant. -/
lemma reachable_inv (s : ProviderState) (h : Reachable s) : Inv s := by
  induction h with
  | init =>
    refine ⟨?_, ?_⟩
    · intro p hp; cases hp
    · exact List.nodup_nil
  | setcb s b _ ih => exact inv_setCallback s b ih
  | add cfg s d _ ih => exact inv_addExternalCamera cfg s d ih
  | devAdd env cfg s d _ ih => exact inv_deviceAdded env cfg s d ih
  | remove cfg s d _ ih => exact inv_deviceRemoved cfg s d ih
  | scan env cfg s _ ih => exact inv_updateAttachedCameras env cfg s ih
  | watch env cfg s evs g _ ih => exact inv_threadLoopInvocation env cfg s evs g ih
  | getIface env cfg s n _ ih => exact inv_getCameraDeviceInterface env cfg s n ih

/- ### Helper lemmas for the claims -/

/-- A `"video"`-prefixed name does not start with `"cec"`. -/
lemma isPre_cec_video (l : List Char) : isPre (s2l ("cec")) (kPrefix ++ l) = false := rfl

/-- A `"video"`-prefixed name starts with `"video"`. -/
lemma isPre_video_append (l : List Char) : isPre kPrefix (kPrefix ++ l) = true := rfl

/-- Dropping `kPrefixLen` from a `"video"`-prefixed name leaves the suffix. -/
lemma drop_kPrefixLen (l : List Char) : (kPrefix ++ l).drop kPrefixLen = l := rfl

/-- Dropping `kDevicePrefixLen` from a `"/dev/video"`-prefixed path
leaves the numeric suffix. -/
lemma drop_devPrefix (l : List Char) : (s2l ("/dev/video") ++ l).drop kDevicePrefixLen = l := rfl

/-- A digit string contains no line-terminator characters. -/
lemma any_nl_false_of_digits (l : List Char) (hl : ∀ c ∈ l, isDig c = true) :
    l.any (fun c => c = '\n' || c = '\r') = false := by
  induction l with
  | nil => rfl
  | cons c t ih =>
    have hc := hl c (List.mem_cons_self _ _)
    simp only [List.any_cons, Bool.or_eq_false_iff]
    refine ⟨?_, ih (fun x hx => hl x (List.mem_cons_of_mem _ hx))⟩
    simp only [Bool.or_eq_false_iff, decide_eq_false_iff_not]
    constructor
    · intro h; subst h; exact absurd hc (by decide)
    · intro h; subst h; exact absurd hc (by decide)

/-- Building a device name of the wire grammar and matching it with
`kDeviceNameRE` recovers the groups. -/
lemma matchShape_build (v1 v2 id : List Char)
    (h1 : v1 ≠ []) (hd1 : ∀ c ∈ v1, isDig c = true)
    (h2 : v2 ≠ []) (hd2 : ∀ c ∈ v2, isDig c = true)
    (hid : id ≠ []) (hnl : id.any (fun c => c = '\n' || c = '\r') = false) :
    matchShape (s2l ("device@") ++ (v1 ++ ('.' :: (v2 ++ (s2l ("/external/") ++ id))))) =
      some (v1 ++ '.' :: v2, id) := by
  have e1 := stripPre_append (s2l ("device@"))
      (v1 ++ ('.' :: (v2 ++ (s2l ("/external/") ++ id))))
  have e2 : takeDigs (v1 ++ ('.' :: (v2 ++ (s2l ("/external/") ++ id)))) =
      (v1, '.' :: (v2 ++ (s2l ("/external/") ++ id))) := by
    apply takeDigs_append _ _ hd1
    intro c cs h
    injection h with hh _
    rw [← hh]; decide
  have e3 : takeDigs (v2 ++ (s2l ("/external/") ++ id)) = (v2, s2l ("/external/") ++ id) := by
    apply takeDigs_append _ _ hd2
    intro c cs h
    have h' : '/' :: (s2l ("external/") ++ id) = c :: cs := h
    injection h' with hh _
    rw [← hh]; decide
  have e4 := stripPre_append (s2l ("/external/")) id
  simp only [matchShape, e1, e2, e3, e4, hnl]
  simp [h1, h2, hid]

/-- `matchDeviceName` on a built logical device name with a decimal id. -/
lemma matchDeviceName_build (offset : Int) (v1 v2 : List Char) (N : Nat)
    (h1 : v1 ≠ []) (hd1 : ∀ c ∈ v1, isDig c = true)
    (h2 : v2 ≠ []) (hd2 : ∀ c ∈ v2, isDig c = true) :
    matchDeviceName offset
        (s2l ("device@") ++ (v1 ++ ('.' :: (v2 ++ (s2l ("/external/") ++ natToChars N))))) =
      .ok (v1 ++ '.' :: v2) (s2l ("/dev/video") ++ intToChars ((N : Int) - offset)) := by
  simp only [matchDeviceName,
    matchShape_build v1 v2 (natToChars N) h1 hd1 h2 hd2 (natToChars_ne_nil N)
      (any_nl_false_of_digits _ (natToChars_all_dig N)),
    stoiChars_natToChars]

/-- `std::to_string` of a nonnegative difference. -/
lemma intToChars_sub (a b : Nat) (h : b ≤ a) :
    intToChars ((a : Int) - (b : Int)) = natToChars (a - b) := by
  rw [← Nat.cast_sub h, intToChars_ofNat]

/-- The device name derived by `addExternalCamera`/`deviceRemoved` from a
`"/dev/video<n>"` path with a nonnegative offset. -/
lemma deviceNameOf_build (cfg : Cfg) (n O : Nat) (hoff : cfg.cameraIdOffset = (O : Int)) :
    deviceNameOf cfg (s2l ("/dev/video") ++ natToChars n) =
      s2l ("device@") ++ (cfg.kDeviceVersion ++ (s2l ("/external/") ++ natToChars (O + n))) := by
  unfold deviceNameOf
  rw [drop_devPrefix, atoiChars_natToChars, hoff,
    show ((O : Int) + (n : Int)) = ((O + n : Nat) : Int) by push_cast; ring,
    intToChars_ofNat]
  simp [List.append_assoc]

/-- With only-`PRESENT` values, membership determines the lookup result. -/
lemma lookupStatus_present_of_mem :
    ∀ (m : List KV), (∀ p ∈ m, p.2 = CameraDeviceStatus.PRESENT) →
      ∀ (id : List Char) (st : CameraDeviceStatus), (id, st) ∈ m →
        lookupStatus m id = some CameraDeviceStatus.PRESENT := by
  intro m
  induction m with
  | nil => intro _ id st hmem; cases hmem
  | cons q t ih =>
    intro hval id st hmem
    obtain ⟨k', v'⟩ := q
    have hv' : v' = CameraDeviceStatus.PRESENT := hval (k', v') (List.mem_cons_self _ _)
    simp only [lookupStatus]
    by_cases hk : k' = id
    · rw [if_pos hk, hv']
    · rw [if_neg hk]
      rcases List.mem_cons.mp hmem with h' | h'
      · exact absurd (congrArg Prod.fst h').symm hk
      · exact ih (fun p hp => hval p (List.mem_cons_of_mem _ hp)) id st h'

/- ### Concrete fixtures used by witnesses and counterexamples -/

/-- Configuration with offset 2, internal suffix `"0"`, version `"3.4"`
(the spec's running example). -/
def cfg0 : Cfg := ⟨2, [s2l ("0")], s2l ("3.4")⟩

/-- Empty registry, no callback attached. -/
def sEmpty : ProviderState := ⟨[], false⟩

/-- Empty registry, callback attached. -/
def sCb : ProviderState := ⟨[], true⟩

/-- `/dev/video5`. -/
def dev5 : List Char := s2l ("/dev/video5")

/-- `/dev/video6`. -/
def dev6 : List Char := s2l ("/dev/video6")

/-- `/dev/video9`. -/
def dev9 : List Char := s2l ("/dev/video9")

/-- The logical id of `/dev/video5` at offset 2. -/
def nm7 : List Char := s2l ("device@3.4/external/7")

/-- The logical id of `/dev/video6` at offset 2. -/
def nm8 : List Char := s2l ("device@3.4/external/8")

/-- An environment in which every kernel-facing effect fails and the
device directory is empty. -/
def env0 : DevEnv :=
  ⟨fun _ => none, fun _ => false, fun _ => none, fun _ => false,
   fun _ => false, fun _ => none, fun _ => false, []⟩

/- ### Claims -/

/-- **C1** (counterexample). Two consecutive `addExternalCamera` calls for
`/dev/video5` with a callback attached leave exactly the single entry
`device@3.4/external/7 ↦ PRESENT`, but fire **two** notifications in
total, not one: the callback is invoked unconditionally on every call,
also on the no-op repeat. This falsifies "two consecutive recordPresent
calls for the same id fire exactly one notification in total". -/
theorem recordPresent_repeat_counterexample :
    (addExternalCamera cfg0 (addExternalCamera cfg0 sCb dev5).1 dev5).1.cameraStatusMap =
      [(nm7, CameraDeviceStatus.PRESENT)]
    ∧ ((addExternalCamera cfg0 sCb dev5).2 ++
        (addExternalCamera cfg0 (addExternalCamera cfg0 sCb dev5).1 dev5).2).length = 2
    ∧ ¬ (((addExternalCamera cfg0 sCb dev5).2 ++
        (addExternalCamera cfg0 (addExternalCamera cfg0 sCb dev5).1 dev5).2).length = 1) := by
  decide

/-- **C1** (amended). `recordPresent` (`addExternalCamera`) is idempotent
on the registry: after two consecutive calls for the same node the
registry holds exactly one entry for the derived id; but each call fires
one notification to the attached sink (two in total), because the
callback is invoked unconditionally, not only on a fresh insertion. -/
theorem recordPresent_repeat (cfg : Cfg) (s : ProviderState) (devName : List Char)
    (hnd : (s.cameraStatusMap.map Prod.fst).Nodup) (hcb : s.callback = true) :
    countKey (addExternalCamera cfg (addExternalCamera cfg s devName).1 devName).1.cameraStatusMap
      (deviceNameOf cfg devName) = 1
    ∧ (addExternalCamera cfg s devName).2 = [(deviceNameOf cfg devName, .PRESENT)]
    ∧ (addExternalCamera cfg (addExternalCamera cfg s devName).1 devName).2 =
        [(deviceNameOf cfg devName, .PRESENT)] := by
  refine ⟨?_, ?_, ?_⟩
  · show countKey
      (mapSet (mapSet s.cameraStatusMap (deviceNameOf cfg devName) .PRESENT)
        (deviceNameOf cfg devName) .PRESENT) (deviceNameOf cfg devName) = 1
    exact countKey_mapSet _ _ _ (nodup_keys_mapSet _ _ _ hnd)
  · simp [addExternalCamera, hcb]
  · simp [addExternalCamera, hcb]

/-- **C1** witness: the amended theorem at the concrete repeat scenario. -/
theorem recordPresent_repeat_witness :
    countKey (addExternalCamera cfg0 (addExternalCamera cfg0 sCb dev5).1 dev5).1.cameraStatusMap
      (deviceNameOf cfg0 dev5) = 1 :=
  (recordPresent_repeat cfg0 sCb dev5 (by decide) (by decide)).1

/-- **C2** (counterexample). `device@3.4/external/x` has a non-decimal id
part, yet `kDeviceNameRE` accepts it (`(.+)` matches any nonempty id), so
`matchDeviceName` does not reject it: `std::stoi("x")` throws and the
exception escapes `getCameraDeviceInterface` instead of a clean
invalid-argument return. Moreover `device@3.4/external/12abc` is accepted
outright, using only the decimal prefix `12`. -/
theorem matchDeviceName_nondecimal_counterexample :
    matchDeviceName 2 (s2l ("device@3.4/external/x")) = .stoiThrow
    ∧ (getCameraDeviceInterface env0 cfg0 sEmpty (s2l ("device@3.4/external/x"))).1 = .thrown
    ∧ matchDeviceName 2 (s2l ("device@3.4/external/12abc")) =
        .ok (s2l ("3.4")) (s2l ("/dev/video10")) := by
  decide

/-- **C2** (amended). `matchDeviceName` accepts exactly the relaxed
anchored grammar `device@<digits>.<digits>/external/<nonempty id>` (the id
group is `(.+)`, not a decimal integer): a string failing that shape is
rejected and `getCameraDeviceInterface` returns `ILLEGAL_ARGUMENT` with a
null device and an unchanged state, without crashing; a string matching
the shape whose id has no leading decimal value makes `std::stoi` throw
(the exception escapes rather than a clean invalid-argument); when `stoi`
succeeds the name is accepted with the id's leading decimal value. -/
theorem matchDeviceName_spec (offset : Int) (name : List Char) (env : DevEnv) (cfg : Cfg)
    (s : ProviderState) :
    (matchShape name = none →
      matchDeviceName offset name = .noMatch
      ∧ getCameraDeviceInterface env cfg s name = (.ret .ILLEGAL_ARGUMENT none, s))
    ∧ (∀ v id, matchShape name = some (v, id) → stoiChars id = none →
      matchDeviceName offset name = .stoiThrow
      ∧ (getCameraDeviceInterface env cfg s name).1 = .thrown)
    ∧ (∀ v id n, matchShape name = some (v, id) → stoiChars id = some n →
      matchDeviceName offset name = .ok v (s2l ("/dev/video") ++ intToChars (n - offset))) := by
  refine ⟨?_, ?_, ?_⟩
  · intro h
    constructor
    · simp [matchDeviceName, h]
    · simp [getCameraDeviceInterface, matchDeviceName, h]
  · intro v id h hs
    constructor
    · simp [matchDeviceName, h, hs]
    · simp [getCameraDeviceInterface, matchDeviceName, h, hs]
  · intro v id n h hs
    simp [matchDeviceName, h, hs]

/-- **C2** witness: the amended theorem at a shape-mismatching input. -/
theorem matchDeviceName_spec_witness :
    matchDeviceName 2 (s2l ("device@3.4/external")) = .noMatch
    ∧ getCameraDeviceInterface env0 cfg0 sEmpty (s2l ("device@3.4/external")) =
        (.ret .ILLEGAL_ARGUMENT none, sEmpty) :=
  (matchDeviceName_spec 2 (s2l ("device@3.4/external")) env0 cfg0 sEmpty).1 (by decide)

/-- **C6** (confirmed). `deviceRemoved` for a node whose derived id is not
in the registry reports that no removal occurred (`erase` returned 0),
leaves the registry (and whole state) unchanged, and fires no
notification. -/
theorem recordAbsent_unknown (cfg : Cfg) (s : ProviderState) (devName : List Char)
    (h : countKey s.cameraStatusMap (deviceNameOf cfg devName) = 0) :
    deviceRemoved cfg s devName = (false, s, []) := by
  simp [deviceRemoved, h]

/-- **C6** witness: removing never-added `/dev/video9` from the empty
registry. -/
theorem recordAbsent_unknown_witness :
    countKey sEmpty.cameraStatusMap (deviceNameOf cfg0 dev9) = 0
    ∧ deviceRemoved cfg0 sEmpty dev9 = (false, sEmpty, []) :=
  ⟨by decide, recordAbsent_unknown cfg0 sEmpty dev9 (by decide)⟩

/-- **C9** (confirmed). When the device name parses, the id is `PRESENT`,
and the downstream `ExternalCameraDevice` fails to initialize,
`getCameraDeviceInterface` returns `INTERNAL_ERROR` with a null device and
the provider state — the registry included — is left unchanged, so the id
stays `PRESENT` for a later retry. -/
theorem resolve_init_failure (env : DevEnv) (cfg : Cfg) (s : ProviderState)
    (name version path : List Char)
    (hm : matchDeviceName cfg.cameraIdOffset name = .ok version path)
    (hl : lookupStatus s.cameraStatusMap name = some .PRESENT)
    (hinit : env.initOk path = false) :
    getCameraDeviceInterface env cfg s name = (.ret .INTERNAL_ERROR none, s) := by
  have hc : countKey s.cameraStatusMap name ≠ 0 := countKey_ne_zero_of_lookup _ _ _ hl
  have hv : (mapIndex s.cameraStatusMap name).1 = .PRESENT := mapIndex_val _ _ _ hl
  have hmp : (mapIndex s.cameraStatusMap name).2 = s.cameraStatusMap :=
    mapIndex_present _ _ hc
  simp only [getCameraDeviceInterface, hm]
  rw [if_neg hc]
  simp [hv, hinit, hmp]

/-- The registry holding exactly `device@3.4/external/7 ↦ PRESENT`. -/
def sPresent : ProviderState := ⟨[(nm7, CameraDeviceStatus.PRESENT)], false⟩

/-- **C9** witness: resolving `device@3.4/external/7` (present, node
`/dev/video5`) in an environment where device construction fails. -/
theorem resolve_init_failure_witness :
    getCameraDeviceInterface env0 cfg0 sPresent nm7 = (.ret .INTERNAL_ERROR none, sPresent) :=
  resolve_init_failure env0 cfg0 sPresent nm7 (s2l ("3.4")) dev5 (by decide) (by decide)
    (by decide)

/-- **C10** (confirmed). For every provider state — whatever the registry
holds — `getCameraIdList` returns `OK` with an empty list and
`getVendorTags` returns `OK` with an empty section list: present external
cameras are observable only through `cameraDeviceStatusChange`
notifications. -/
theorem camera_id_list_always_empty (s : ProviderState) :
    getCameraIdList s = (Status.OK, []) ∧ getVendorTags s = (Status.OK, []) :=
  ⟨rfl, rfl⟩

/-- **C3** (confirmed). At every reachable state, an id is in the
presence map iff its lookup yields `PRESENT` (removal is erasure, no
tombstone value exists in the map), and attaching a non-null subscriber
(`setCallback`) replays the map as notifications without mutating it:
each entry once (keys are unique), each with `PRESENT` — so every
currently-present id is delivered exactly once and removed ids not at
all. -/
theorem registry_membership_iff_present (s : ProviderState) (h : Reachable s) :
    (∀ id, (∃ st, (id, st) ∈ s.cameraStatusMap) ↔
      lookupStatus s.cameraStatusMap id = some CameraDeviceStatus.PRESENT)
    ∧ (setCallback s true).1.cameraStatusMap = s.cameraStatusMap
    ∧ (setCallback s true).2 = s.cameraStatusMap
    ∧ (((setCallback s true).2.map Prod.fst).Nodup
    ∧ ∀ p ∈ (setCallback s true).2, p.2 = CameraDeviceStatus.PRESENT) := by
  obtain ⟨hval, hnd⟩ := reachable_inv s h
  refine ⟨?_, rfl, rfl, ?_, ?_⟩
  · intro id
    constructor
    · rintro ⟨st, hmem⟩
      exact lookupStatus_present_of_mem s.cameraStatusMap hval id st hmem
    · intro hl
      exact ⟨CameraDeviceStatus.PRESENT, mem_of_lookupStatus _ _ _ hl⟩
  · exact hnd
  · intro p hp
    exact hval p hp

/-- The state after recording `/dev/video5` and `/dev/video6` present and
then `/dev/video5` absent (the spec's replay scenario). -/
def s3c : ProviderState :=
  (deviceRemoved cfg0
    (addExternalCamera cfg0 (addExternalCamera cfg0 sEmpty dev5).1 dev6).1 dev5).2.1

/-- **C3** witness: after two PRESENT transitions and one NOT_PRESENT
transition, the surviving id is looked up as `PRESENT` and attaching a
subscriber replays exactly that one id, once. -/
theorem registry_membership_iff_present_witness :
    lookupStatus s3c.cameraStatusMap nm8 = some CameraDeviceStatus.PRESENT
    ∧ (setCallback s3c true).2 = [(nm8, CameraDeviceStatus.PRESENT)] := by
  have h := registry_membership_iff_present s3c
    (Reachable.remove cfg0 _ dev5
      (Reachable.add cfg0 _ dev6 (Reachable.add cfg0 _ dev5 Reachable.init)))
  exact ⟨(h.1 nm8).mp ⟨CameraDeviceStatus.PRESENT, by decide⟩, h.2.2.1.trans (by decide)⟩

/-- An environment whose sys-class name file reads as the hardware
decoder, while the node itself would open and answer `VIDIOC_QUERYCAP`
and `VIDIOC_ENUM_FMT` successfully. -/
def env4 : DevEnv :=
  ⟨fun _ => some (s2l ("amphion-vpu-decoder\n")), fun _ => true,
   fun _ => some (s2l ("amphion-vpu")), fun _ => true,
   fun _ => true, fun _ => some 1, fun _ => true, [s2l ("video12")]⟩

/-- **C4** (counterexample). For a node whose name metadata matches the
decoder pattern, `isExternalDevice` does return `false` — but its probe
trace is just the name-file read: the non-blocking open and the
capability query are **never performed** (they would both succeed in this
environment), falsifying "per the algorithm this check is applied after
the non-blocking open and capability-query steps". -/
theorem codec_check_order_counterexample :
    isExternalDevice env4 (s2l ("/dev/video12")) (camPathOf (s2l ("video12"))) =
      ⟨false, false, [ProbeStep.readName]⟩
    ∧ ProbeStep.openDev ∉
        (isExternalDevice env4 (s2l ("/dev/video12")) (camPathOf (s2l ("video12")))).trace
    ∧ ProbeStep.queryCap ∉
        (isExternalDevice env4 (s2l ("/dev/video12")) (camPathOf (s2l ("video12")))).trace
    ∧ env4.openNB (s2l ("/dev/video12")) = true
    ∧ env4.querycap (s2l ("/dev/video12")) = some (s2l ("amphion-vpu")) := by
  decide

/-- **C4** (amended). When the driver-name metadata starts with the
decoder/encoder pattern, `isExternalDevice` returns `NotExternal`
unconditionally **before** the non-blocking open and the capability
query (its whole probe trace is the single name-file read), and a scan
step over such a node leaves the registry unchanged and fires no
notification — the node is never recorded present. -/
theorem codec_nodes_never_external (env : DevEnv) (devName sysClassName content : List Char)
    (hr : env.readFile sysClassName = some content)
    (hp : isPre kDecoderName content = true ∨ isPre kEncoderName content = true) :
    isExternalDevice env devName sysClassName = ⟨false, false, [ProbeStep.readName]⟩
    ∧ ProbeStep.openDev ∉ (isExternalDevice env devName sysClassName).trace
    ∧ ProbeStep.queryCap ∉ (isExternalDevice env devName sysClassName).trace
    ∧ (∀ (cfg : Cfg) (a : LoopAcc) (entry : List Char),
        env.readFile (camPathOf entry) = some content →
        (scanStep env cfg a entry).st = a.st ∧ (scanStep env cfg a entry).notifs = a.notifs) := by
  have hmain : isExternalDevice env devName sysClassName =
      ⟨false, false, [ProbeStep.readName]⟩ := by
    simp only [isExternalDevice, hr]
    rcases hp with h | h <;> simp [h]
  refine ⟨hmain, ?_, ?_, ?_⟩
  · rw [hmain]; decide
  · rw [hmain]; decide
  · intro cfg a entry hre
    have hm2 : isExternalDevice env (kDevicePath ++ entry) (camPathOf entry) =
        ⟨false, false, [ProbeStep.readName]⟩ := by
      simp only [isExternalDevice, hre]
      rcases hp with h | h <;> simp [h]
    simp only [scanStep]
    split
    · exact ⟨rfl, rfl⟩
    · split
      · exact ⟨rfl, rfl⟩
      · rw [hm2]
        exact ⟨rfl, rfl⟩

/-- **C4** witness: the amended theorem at the concrete decoder node. -/
theorem codec_nodes_never_external_witness :
    isExternalDevice env4 (s2l ("/dev/video12")) (camPathOf (s2l ("video12"))) =
      ⟨false, false, [ProbeStep.readName]⟩
    ∧ (scanStep env4 cfg0 ⟨sEmpty, [], []⟩ (s2l ("video12"))).st = sEmpty := by
  have h := codec_nodes_never_external env4 (s2l ("/dev/video12")) (camPathOf (s2l ("video12")))
    (s2l ("amphion-vpu-decoder\n")) (by decide) (Or.inl (by decide))
  exact ⟨h.1, (h.2.2.2 cfg0 ⟨sEmpty, [], []⟩ (s2l ("video12")) (by decide)).1⟩

/-- **C5** (confirmed). Formatting and parsing of logical device ids are
mutually inverse: with a nonnegative offset `O`, recording the node
`/dev/video<n>` derives the id string `device@<ver>/external/<O+n>`, and
`matchDeviceName` maps that very string back to the node path
`/dev/video<n>`; conversely, for any id numeral `N ≥ O`,
`device@<ver>/external/<N>` parses to the node path `/dev/video<N-O>`. -/
theorem logicalDeviceId_round_trip (cfg : Cfg) (O n N : Nat) (v1 v2 : List Char)
    (h1 : v1 ≠ []) (hd1 : ∀ c ∈ v1, isDig c = true)
    (h2 : v2 ≠ []) (hd2 : ∀ c ∈ v2, isDig c = true)
    (hver : cfg.kDeviceVersion = v1 ++ '.' :: v2)
    (hoff : cfg.cameraIdOffset = (O : Int))
    (hNO : O ≤ N) :
    deviceNameOf cfg (s2l ("/dev/video") ++ natToChars n) =
      s2l ("device@") ++ (cfg.kDeviceVersion ++ (s2l ("/external/") ++ natToChars (O + n)))
    ∧ matchDeviceName cfg.cameraIdOffset (deviceNameOf cfg (s2l ("/dev/video") ++ natToChars n)) =
        .ok (v1 ++ '.' :: v2) (s2l ("/dev/video") ++ natToChars n)
    ∧ matchDeviceName cfg.cameraIdOffset
        (s2l ("device@") ++ (cfg.kDeviceVersion ++ (s2l ("/external/") ++ natToChars N))) =
        .ok (v1 ++ '.' :: v2) (s2l ("/dev/video") ++ natToChars (N - O)) := by
  have hassoc : ∀ X : List Char, (v1 ++ '.' :: v2) ++ X = v1 ++ ('.' :: (v2 ++ X)) := by
    intro X
    simp [List.append_assoc]
  have hbuild := deviceNameOf_build cfg n O hoff
  refine ⟨hbuild, ?_, ?_⟩
  · rw [hbuild, hver, hoff, hassoc,
      matchDeviceName_build (O : Int) v1 v2 (O + n) h1 hd1 h2 hd2,
      intToChars_sub (O + n) O (by omega), Nat.add_sub_cancel_left]
  · rw [hver, hoff, hassoc,
      matchDeviceName_build (O : Int) v1 v2 N h1 hd1 h2 hd2,
      intToChars_sub N O hNO]

/-- **C5** witness: offset 2, node `/dev/video5`, id numeral 7. -/
theorem logicalDeviceId_round_trip_witness :
    deviceNameOf cfg0 (s2l ("/dev/video") ++ natToChars 5) =
      s2l ("device@") ++ (cfg0.kDeviceVersion ++ (s2l ("/external/") ++ natToChars 7))
    ∧ matchDeviceName cfg0.cameraIdOffset
        (deviceNameOf cfg0 (s2l ("/dev/video") ++ natToChars 5)) =
        .ok (['3'] ++ '.' :: ['4']) (s2l ("/dev/video") ++ natToChars 5) := by
  have h := logicalDeviceId_round_trip cfg0 2 5 7 ['3'] ['4']
    (by decide) (by decide) (by decide) (by decide) (by decide) (by decide) (by decide)
  exact ⟨h.1, h.2.1⟩

/-- **C7** (confirmed). For a suffix in the configured internal-device
set, both the watch loop's handling of a CREATE event for that node and
the initial scan's handling of its directory entry are complete no-ops:
the provider state, the notification list and the probe list are left
exactly as they were — the internal check precedes any classification or
probing of the node. -/
theorem internal_suffix_create_ignored (env : DevEnv) (cfg : Cfg) (garbage suffix : List Char)
    (hmem : suffix ∈ cfg.mInternalDevices) :
    (∀ w : WatchAcc, eventStep env cfg garbage w ⟨kPrefix ++ suffix, .create⟩ = w)
    ∧ (∀ a : LoopAcc, scanStep env cfg a (kPrefix ++ suffix) = a) := by
  constructor
  · intro w
    unfold eventStep
    have hc : cecStep env cfg garbage w ⟨kPrefix ++ suffix, .create⟩ = w := by
      simp [cecStep, isPre_cec_video]
    rw [hc]
    simp [videoStep, isPre_video_append, drop_kPrefixLen, hmem]
  · intro a
    simp [scanStep, isPre_video_append, drop_kPrefixLen, hmem]

/-- **C7** witness: a CREATE event and a scan entry for internal suffix
`"0"` under the example configuration. -/
theorem internal_suffix_create_ignored_witness :
    s2l ("0") ∈ cfg0.mInternalDevices
    ∧ eventStep env0 cfg0 [] ⟨⟨sEmpty, [], []⟩, none⟩ ⟨kPrefix ++ s2l ("0"), .create⟩ =
        ⟨⟨sEmpty, [], []⟩, none⟩
    ∧ scanStep env0 cfg0 ⟨sEmpty, [], []⟩ (kPrefix ++ s2l ("0")) = ⟨sEmpty, [], []⟩ := by
  have h := internal_suffix_create_ignored env0 cfg0 [] (s2l ("0")) (by decide)
  exact ⟨by decide, h.1 _, h.2 _⟩

/-- An environment holding one HDMI-RX node `/dev/video3`: its name file
reads `mxc_isi.6.capture`, its driver string contains `"cap"`, and it
passes the capture-capability probe and device construction. -/
def envRx : DevEnv :=
  ⟨fun p => if p = camPathOf (s2l ("video3")) then some (kHdmiRxName ++ s2l ("\n")) else none,
   fun _ => true,
   fun _ => some (s2l ("mxc-isi-cap")),
   fun _ => false,
   fun _ => true,
   fun _ => some 4096,
   fun _ => true,
   [s2l ("video3")]⟩

/-- Offset-2 configuration with no internal devices. -/
def cfgRx : Cfg := ⟨2, [], s2l ("3.4")⟩

/-- The logical id of `/dev/video3` at offset 2. -/
def nm5 : List Char := s2l ("device@3.4/external/5")

/-- **C8** (code bug). A CREATE event for `cec0` re-scans the directory,
records the HDMI-RX node `/dev/video3` present as
`device@3.4/external/5` — but the "remembered" node path `mHdmiRxNode`
is a local, uninitialized buffer of `threadLoop`, so in the AIDL provider
it does not survive to the next invocation: a subsequent DELETE event for
`cec0` in a later `threadLoop` invocation calls `deviceRemoved` on the
uninitialized buffer contents (here: empty garbage) and the receiver's
registry entry is **not** removed and no notification fires, contradicting
"removing the same registry entry that the CREATE added". -/
theorem hdmi_rx_delete_does_not_remove :
    (threadLoopInvocation envRx cfgRx sEmpty [⟨s2l ("cec0"), .create⟩] []).st.cameraStatusMap =
      [(nm5, CameraDeviceStatus.PRESENT)]
    ∧ (threadLoopInvocation envRx cfgRx
        (threadLoopInvocation envRx cfgRx sEmpty [⟨s2l ("cec0"), .create⟩] []).st
        [⟨s2l ("cec0"), .delete⟩] []).st.cameraStatusMap =
      [(nm5, CameraDeviceStatus.PRESENT)]
    ∧ (threadLoopInvocation envRx cfgRx
        (threadLoopInvocation envRx cfgRx sEmpty [⟨s2l ("cec0"), .create⟩] []).st
        [⟨s2l ("cec0"), .delete⟩] []).notifs = [] := by
  decide

end ExtCam
